import Mathlib

/-!
Shallow embedding of the highscore API helper module of the
shantrm.github.io repository (api-helpers.js, in its two observed
versions), together with the color-name normalizer documented in the
spec.  JS strings are modelled as `List Char`; JS numbers as `JSNum`
(NaN or a rational); network effects as explicit response environments
plus an accumulated list of network calls (`NetCall`).
-/

/-- String literal helper: the character list of a Lean string. -/
def cs (s : String) : List Char := s.data

/-- JS `String.prototype.toLowerCase` (ASCII range, as exercised here). -/
def toLowerL (l : List Char) : List Char := l.map Char.toLower

/-- JS whitespace characters relevant to `trim` and `\s` (ASCII range). -/
def isJsWs (c : Char) : Bool :=
  c == ' ' || c == Char.ofNat 9 || c == Char.ofNat 10 || c == Char.ofNat 13 ||
  c == Char.ofNat 11 || c == Char.ofNat 12

/-- JS `String.prototype.trim`: drop whitespace from both ends. -/
def trimL (l : List Char) : List Char :=
  ((l.dropWhile isJsWs).reverse.dropWhile isJsWs).reverse

/-- The obfuscation character class removed by version 1 of
`containsProfanity`: `[0-9@#$%^&*()_+\-=\[\]{};':"\\|,.<>\/?]`. -/
def isObfChar (c : Char) : Bool :=
  c.isDigit ||
  c == '@' || c == '#' || c == '$' || c == '%' || c == '^' || c == '&' ||
  c == '*' || c == '(' || c == ')' || c == '_' || c == '+' || c == '-' ||
  c == '=' || c == '[' || c == ']' || c == Char.ofNat 123 || c == Char.ofNat 125 ||
  c == ';' || c == Char.ofNat 39 || c == ':' || c == Char.ofNat 34 ||
  c == '\\' || c == '|' || c == ',' || c == '.' || c == '<' || c == '>' ||
  c == '/' || c == '?'

/-- `.replace(/[0-9@#$%^&*()_+\-=\[\]{};':"\\|,.<>\/?]/g, '')`. -/
def stripObf (l : List Char) : List Char := l.filter (fun c => !isObfChar c)

/-- `.replace(/\s+/g, '')`: remove all whitespace. -/
def stripWs (l : List Char) : List Char := l.filter (fun c => !isJsWs c)

/-- `.replace(/[^a-z]/g, '')`: keep only lowercase ASCII letters. -/
def keepLowerAlpha (l : List Char) : List Char :=
  l.filter (fun c => 97 ≤ c.toNat && c.toNat ≤ 122)

/-- JS `String.prototype.includes`: substring containment (the empty
needle is contained in every string). -/
def includesSub (needle hay : List Char) : Bool :=
  (List.range (hay.length + 1)).any
    (fun i => (hay.drop i).take needle.length == needle)

/-- Version 1 of `containsProfanity` (api-helpers.js, first version):
if the wordlist is empty return false; otherwise flag the username when
some entry, stripped to lowercase letters, is a substring of the
obfuscation-stripped lowercased username, or the lowercased entry is a
raw substring of the lowercased username. -/
def containsProfanityV1 (words : List (List Char)) (username : List Char) : Bool :=
  if words.length == 0 then false
  else
    words.any (fun word =>
      includesSub (keepLowerAlpha (toLowerL word))
          (stripWs (stripObf (toLowerL username)))
        || includesSub (toLowerL word) (toLowerL username))

/-- JS regex word character `\w = [A-Za-z0-9_]`. -/
def isWordChar (c : Char) : Bool :=
  (97 ≤ c.toNat && c.toNat ≤ 122) || (65 ≤ c.toNat && c.toNat ≤ 90) ||
  (48 ≤ c.toNat && c.toNat ≤ 57) || c == '_'

/-- `\b` at the junction between the end of `pre` and the start of the
matched word `w` (string edges count as non-word positions). -/
def boundaryLeft (pre w : List Char) : Bool :=
  match pre.getLast?, w.head? with
  | some a, some b => isWordChar a != isWordChar b
  | none, some b => isWordChar b
  | _, none => true

/-- `\b` at the junction between the end of the matched word `w` and the
start of `suf`. -/
def boundaryRight (w suf : List Char) : Bool :=
  match w.getLast?, suf.head? with
  | some a, some b => isWordChar a != isWordChar b
  | some a, none => isWordChar a
  | none, _ => true

/-- `new RegExp('\\b' + escapedWord + '\\b', 'i').test(s)`: some
occurrence of `w` in `s` is delimited by word boundaries.  Escaping only
makes the pattern match `w` literally, and both `w` and `s` are already
lowercased at the call site, so the test is literal containment with
boundaries. -/
def hasWholeWord (w s : List Char) : Bool :=
  (List.range (s.length + 1)).any (fun i =>
    ((s.drop i).take w.length == w) &&
    boundaryLeft (s.take i) w &&
    boundaryRight w ((s.drop i).drop w.length))

/-- Body of the second (word-boundary) loop of version 2 of
`containsProfanity` for one wordlist entry: entries whose trimmed
lowercased form is shorter than 3 characters are skipped. -/
def wholeWordHit (lowerUsername word : List Char) : Bool :=
  if (trimL (toLowerL word)).length < 3 then false
  else hasWholeWord (trimL (toLowerL word)) lowerUsername

/-- Version 2 of `containsProfanity` (api-helpers.js, second version,
and src/unnamed/part_000): empty wordlist permits everything; otherwise
first check whether the trimmed lowercased username equals some trimmed
lowercased entry outright, then check each entry of length at least 3
for a word-boundary match. -/
def containsProfanityV2 (words : List (List Char)) (username : List Char) : Bool :=
  if words.length == 0 then false
  else
    (words.any (fun word => trimL (toLowerL username) == trimL (toLowerL word)))
    || (words.any (fun word => wholeWordHit (trimL (toLowerL username)) word))

/-- A JS number: NaN or a finite value (modelled as a rational). -/
inductive JSNum where
  | nan
  | fin (q : ℚ)
deriving DecidableEq

/-- A JS value passed as the `score` argument. -/
inductive JSVal where
  | num (n : JSNum)
  | str (s : List Char)
  | undef
deriving DecidableEq

/-- JS `score < 0`: false for NaN (all comparisons with NaN are false). -/
def jsNegative : JSNum → Bool
  | .nan => false
  | .fin q => decide (q < 0)

/-- The guard `typeof score !== 'number' || score < 0`. -/
def scoreInvalidB : JSVal → Bool
  | .num n => jsNegative n
  | _ => true

/-- `Math.floor`: floor of a finite number, NaN for NaN. -/
def jsFloor : JSNum → JSNum
  | .nan => .nan
  | .fin q => .fin (⌊q⌋ : ℚ)

/-- `Math.floor(score)` as applied after validation (the non-number
branch is unreachable once `scoreInvalidB` is false). -/
def floorScore : JSVal → JSNum
  | .num n => jsFloor n
  | _ => .nan

/-- The resolved configuration: `SUPABASE_URL` and `SUPABASE_KEY`
(empty strings when config.js is absent). -/
structure Config where
  url : List Char
  anonKey : List Char
deriving DecidableEq

/-- The JS truthiness guard `SUPABASE_URL && SUPABASE_KEY`. -/
def configPresent (cfg : Config) : Bool :=
  !cfg.url.isEmpty && !cfg.anonKey.isEmpty

/-- A row of the `highscores` table as echoed by the remote service,
kept opaque (raw JSON). -/
structure RemoteRecord where
  raw : List Char
deriving DecidableEq

/-- Response of one IP lookup service: a network/HTTP failure, or a
parsed JSON body whose extracted field `data.ip || data.query ||
data.IPv4` is `some s` when it is a truthy string and `none`
otherwise. -/
inductive IpResp where
  | fail
  | ok (ipField : Option (List Char))
deriving DecidableEq

/-- Response of the remote write (POST to `highscores`). -/
inductive InsertResp where
  | ok (data : RemoteRecord)
  | err (status : Nat) (body : List Char)
deriving DecidableEq

/-- Response of the leaderboard read (POST to `rpc/get_top_scores`). -/
inductive FetchResp where
  | ok (rows : List RemoteRecord)
  | err (status : Nat) (body : List Char)
deriving DecidableEq

/-- The JSON body sent by the remote write: trimmed username, floored
score, and the optional `ip_address` field. -/
structure Payload where
  username : List Char
  score : JSNum
  ip : Option (List Char)
deriving DecidableEq

/-- One network call made by the module (IP lookups carry the index of
the service tried). -/
inductive NetCall where
  | ipLookup (service : Nat)
  | insert (p : Payload)
  | fetchScores (limit : Nat)
deriving DecidableEq

/-- The errors thrown by the module, one constructor per thrown
`Error` message. -/
inductive ApiError where
  | configMissing
  | usernameRequired
  | usernameTooLong
  | usernameProfane
  | scoreInvalid
  | submitFailed (status : Nat) (body : List Char)
  | fetchFailed (status : Nat) (body : List Char)
deriving DecidableEq

/-- The record returned by `submitScore` on success. -/
structure SubmitResult where
  success : Bool
  inserted : RemoteRecord
  topScores : List RemoteRecord
deriving DecidableEq

/-- `getTopScores(limit)`: requires configuration, then issues one read
against `rpc/get_top_scores`; a non-success response is surfaced as a
descriptive failure.  Returns the result together with the list of
network calls made. -/
def getTopScores (cfg : Config) (limit : Nat) (resp : FetchResp) :
    Except ApiError (List RemoteRecord) × List NetCall :=
  if !configPresent cfg then (.error .configMissing, [])
  else
    match resp with
    | .ok rows => (.ok rows, [.fetchScores limit])
    | .err st body => (.error (.fetchFailed st body), [.fetchScores limit])

/-- The value a service response contributes in `getClientIP`:
`ip && typeof ip === 'string'` must hold (a truthy, hence nonempty,
string), and the returned address is trimmed. -/
def ipRespValue : IpResp → Option (List Char)
  | .ok (some s) => if s.isEmpty then none else some (trimL s)
  | _ => none

/-- `getClientIP`: try the IP lookup services in order starting at
index `i`, at most `k` of them, first parsable answer wins; total
failure yields `none` without error.  Also returns the calls made. -/
def getClientIP (resps : Nat → IpResp) : Nat → Nat → Option (List Char) × List NetCall
  | _, 0 => (none, [])
  | i, k + 1 =>
    match ipRespValue (resps i) with
    | some ip => (some ip, [NetCall.ipLookup i])
    | none =>
      let r := getClientIP resps (i + 1) k
      (r.1, NetCall.ipLookup i :: r.2)

/-- The number of IP lookup services in the source's `services` list. -/
def ipServiceCount : Nat := 4

/-- The environment of remote responses a `submitScore` run observes. -/
structure SubmitEnv where
  ipResps : Nat → IpResp
  insertResp : InsertResp
  fetchResp : FetchResp

/-- `submitScore(username, score)` (api-helpers.js, second version):
config check, then the four local validations in source order, then the
IP lookup, the remote write with the normalized payload, and on write
success the leaderboard re-fetch `getTopScores(50)`.  Returns the
result together with the list of network calls made, in order. -/
def submitScore (cfg : Config) (words : List (List Char)) (username : List Char)
    (score : JSVal) (env : SubmitEnv) :
    Except ApiError SubmitResult × List NetCall :=
  if !configPresent cfg then (.error .configMissing, [])
  else if (trimL username).isEmpty then (.error .usernameRequired, [])
  else if 20 < (trimL username).length then (.error .usernameTooLong, [])
  else if containsProfanityV2 words username then (.error .usernameProfane, [])
  else if scoreInvalidB score then (.error .scoreInvalid, [])
  else
    let ipr := getClientIP env.ipResps 0 ipServiceCount
    let payload : Payload := ⟨trimL username, floorScore score, ipr.1⟩
    let calls1 := ipr.2 ++ [NetCall.insert payload]
    match env.insertResp with
    | .err st body => (.error (.submitFailed st body), calls1)
    | .ok data =>
      let fr := getTopScores cfg 50 env.fetchResp
      match fr.1 with
      | .error e => (.error e, calls1 ++ fr.2)
      | .ok rows => (.ok ⟨true, data, rows⟩, calls1 ++ fr.2)

/-- Modelled from the spec: the Color Name Normalizer of the snake
game, whose source is not under src/.  The four sentinel names pass
through case-insensitively to their canonical uppercase form; a
recognized hex code (case-insensitive) maps to its fixed canonical
name (the spec documents the pair #FF0000 → RED; the remaining entries
of the 11-entry table are not enumerated by the spec and are therefore
not reproduced); unrecognized input is returned unchanged. -/
def colorSentinels : List (List Char) :=
  [cs "RAINBOW", cs "HACKER", cs "SPEED", cs "NINJA"]

/-- Modelled from the spec: the documented hex-code → canonical-name
entries of the fixed color map. -/
def colorMap : List (List Char × List Char) := [(cs "#ff0000", cs "RED")]

/-- Modelled from the spec: `normalize(hex)` — sentinels (matched
case-insensitively) yield the canonical uppercase sentinel, recognized
hex codes (matched case-insensitively) yield the mapped canonical name,
and any other input is returned unchanged (never rejected). -/
def normalizeColor (s : List Char) : List Char :=
  match colorSentinels.find? (fun n => toLowerL n == toLowerL s) with
  | some n => n
  | none =>
    match colorMap.find? (fun p => p.1 == toLowerL s) with
    | some p => p.2
    | none => s

/-- A concrete present configuration, for witnesses. -/
def cfgEx : Config := ⟨cs "https://example.supabase.co", cs "anon-key"⟩

/-- A concrete response environment, for witnesses: every IP lookup
fails, the remote write succeeds echoing one row, the leaderboard
fetch succeeds with an empty board. -/
def envEx : SubmitEnv :=
  ⟨fun _ => IpResp.fail, InsertResp.ok ⟨cs "row"⟩, FetchResp.ok []⟩

/-- The empty needle is a substring of every string, as with JS
`includes('')`. -/
theorem includesSub_nil (hay : List Char) : includesSub [] hay = true := by
  unfold includesSub
  refine List.any_eq_true.mpr ⟨0, List.mem_range.mpr (Nat.succ_pos _), ?_⟩
  simp

/-- If some wordlist entry's per-entry check succeeds, version 1 of the
filter flags the candidate. -/
theorem containsProfanityV1_of_mem {words : List (List Char)} {w c : List Char}
    (hw : w ∈ words)
    (h : (includesSub (keepLowerAlpha (toLowerL w)) (stripWs (stripObf (toLowerL c)))
          || includesSub (toLowerL w) (toLowerL c)) = true) :
    containsProfanityV1 words c = true := by
  match words, hw with
  | x :: t, hw =>
    unfold containsProfanityV1
    rw [if_neg (by simp)]
    exact List.any_eq_true.mpr ⟨w, hw, h⟩

/-- C9: for every candidate, an empty (not yet loaded or unavailable)
profanity wordlist makes both versions of the check return false — the
filter permits everything. -/
theorem emptyWordlist_permitsAll (c : List Char) :
    containsProfanityV1 [] c = false ∧ containsProfanityV2 [] c = false :=
  ⟨rfl, rfl⟩

/-- C2: under the word-boundary policy with wordlist ["ass"],
check "pass" is false, check "ass" is true, check "ASS" is true
(case-insensitive); and any entry whose cleaned form is shorter than 3
characters never produces a word-boundary match. -/
theorem wordBoundaryPolicy_cases :
    containsProfanityV2 [cs "ass"] (cs "pass") = false ∧
    containsProfanityV2 [cs "ass"] (cs "ass") = true ∧
    containsProfanityV2 [cs "ass"] (cs "ASS") = true ∧
    ∀ (cand word : List Char), (trimL (toLowerL word)).length < 3 →
      wholeWordHit cand word = false := by
  refine ⟨by decide, by decide, by decide, ?_⟩
  intro cand word h
  unfold wholeWordHit
  rw [if_pos h]

/-- Witness for C2 at the 2-character entry "as" and candidate
"badass". -/
theorem wordBoundaryPolicy_cases_witness :
    wholeWordHit (cs "badass") (cs "as") = false :=
  wordBoundaryPolicy_cases.2.2.2 (cs "badass") (cs "as") (by decide)

/-- C3: under the normalized-substring policy, with wordlist ["ass"]
the candidate "a55" is not flagged (digit stripping yields "a"), while
for every wordlist containing "ass" the candidate "a-s-s" is flagged
(punctuation stripping yields "ass"). -/
theorem normalizedSubstringPolicy_cases :
    containsProfanityV1 [cs "ass"] (cs "a55") = false ∧
    ∀ words : List (List Char), cs "ass" ∈ words →
      containsProfanityV1 words (cs "a-s-s") = true := by
  refine ⟨by decide, ?_⟩
  intro words hw
  exact containsProfanityV1_of_mem hw (by decide)

/-- Witness for C3 at the singleton wordlist ["ass"]. -/
theorem normalizedSubstringPolicy_cases_witness :
    containsProfanityV1 [cs "ass"] (cs "a-s-s") = true :=
  normalizedSubstringPolicy_cases.2 [cs "ass"] (by decide)

/-- C10: a wordlist entry all of whose characters lowercase to
non-letters normalizes to the empty string under version 1's
`[^a-z]`-stripping, and version 1 of the check then flags every
candidate. -/
theorem nonLetterEntry_flagsAll (words : List (List Char)) (w : List Char)
    (hw : w ∈ words)
    (hnl : ∀ ch ∈ w,
      (97 ≤ (Char.toLower ch).toNat && (Char.toLower ch).toNat ≤ 122) = false) :
    keepLowerAlpha (toLowerL w) = [] ∧
    ∀ c : List Char, containsProfanityV1 words c = true := by
  have hempty : keepLowerAlpha (toLowerL w) = [] := by
    unfold keepLowerAlpha toLowerL
    rw [List.filter_eq_nil_iff]
    intro a ha
    rcases List.mem_map.mp ha with ⟨b, hb, rfl⟩
    simp [hnl b hb]
  refine ⟨hempty, fun c => ?_⟩
  apply containsProfanityV1_of_mem hw
  rw [hempty, includesSub_nil]
  rfl

/-- Witness for C10 at the digits-and-punctuation entry "5-5". -/
theorem nonLetterEntry_flagsAll_witness :
    containsProfanityV1 [cs "5-5"] (cs "Anyone") = true :=
  (nonLetterEntry_flagsAll [cs "5-5"] (cs "5-5") (by decide) (by decide)).2 (cs "Anyone")

/-- C5: the spec-modelled color normalizer maps the recognized hex code
"#FF0000" to "RED", the sentinel "rainbow" to its canonical uppercase
form "RAINBOW", and returns the unrecognized "#123456" unchanged. -/
theorem normalizeColor_cases :
    normalizeColor (cs "#FF0000") = cs "RED" ∧
    normalizeColor (cs "rainbow") = cs "RAINBOW" ∧
    normalizeColor (cs "#123456") = cs "#123456" :=
  ⟨by decide, by decide, by decide⟩

/-- C8: when the configuration is absent, both `getTopScores` and
`submitScore` fail with the configuration-missing error and make no
network call at all. -/
theorem configMissing_noNetwork (cfg : Config) (h : configPresent cfg = false) :
    (∀ (limit : Nat) (resp : FetchResp),
      getTopScores cfg limit resp = (.error .configMissing, [])) ∧
    (∀ (words : List (List Char)) (u : List Char) (s : JSVal) (env : SubmitEnv),
      submitScore cfg words u s env = (.error .configMissing, [])) := by
  constructor
  · intro limit resp
    unfold getTopScores
    rw [h]
    rfl
  · intro words u s env
    unfold submitScore
    rw [h]
    rfl

/-- Witness for C8 at the empty (config.js absent) configuration. -/
theorem configMissing_noNetwork_witness :
    getTopScores ⟨[], []⟩ 50 (FetchResp.ok []) = (.error .configMissing, []) ∧
    submitScore ⟨[], []⟩ [] (cs "ValidUser") (JSVal.num (.fin 100)) envEx
      = (.error .configMissing, []) :=
  ⟨(configMissing_noNetwork ⟨[], []⟩ (by decide)).1 50 (FetchResp.ok []),
   (configMissing_noNetwork ⟨[], []⟩ (by decide)).2 [] (cs "ValidUser")
     (JSVal.num (.fin 100)) envEx⟩

/-- C4 counterexample: with a valid username and score NaN,
`submitScore` does not fail with the invalid-score validation error —
`typeof NaN === 'number'` holds and `NaN < 0` is false, so NaN passes
validation and the submission succeeds. -/
theorem scoreNaN_counterexample :
    (submitScore cfgEx [] (cs "ValidUser") (JSVal.num JSNum.nan) envEx).1
      = Except.ok ⟨true, ⟨cs "row"⟩, []⟩ := rfl

/-- C4 (amended): for every score argument that is not a JS number or
is a negative number, `submitScore` with an otherwise valid username
fails with the invalid-score validation error (NaN is excluded: it is a
JS number and compares false against 0). -/
theorem submitScore_rejectsInvalidScore (cfg : Config) (words : List (List Char))
    (u : List Char) (s : JSVal) (env : SubmitEnv)
    (hc : configPresent cfg = true)
    (h1 : (trimL u).isEmpty = false)
    (h2 : ¬ 20 < (trimL u).length)
    (h3 : containsProfanityV2 words u = false)
    (h4 : scoreInvalidB s = true) :
    submitScore cfg words u s env = (.error .scoreInvalid, []) := by
  unfold submitScore
  rw [hc, h1, h3, h4, if_neg h2]
  rfl

/-- Witness for C4's amended claim at the negative score -5. -/
theorem submitScore_rejectsInvalidScore_witness :
    submitScore cfgEx [] (cs "ValidUser") (JSVal.num (.fin (-5))) envEx
      = (.error .scoreInvalid, []) :=
  submitScore_rejectsInvalidScore cfgEx [] (cs "ValidUser") (JSVal.num (.fin (-5)))
    envEx (by decide) (by decide) (by decide) (by decide) (by decide)

/-- Every call made by `getClientIP` is an IP lookup. -/
theorem getClientIP_calls (resps : Nat → IpResp) (k i : Nat) :
    ∀ c ∈ (getClientIP resps i k).2, ∃ j, c = NetCall.ipLookup j := by
  induction k generalizing i with
  | zero =>
    intro c hc
    simp [getClientIP] at hc
  | succ k ih =>
    intro c hc
    unfold getClientIP at hc
    cases h : ipRespValue (resps i) with
    | some ip =>
      rw [h] at hc
      simp at hc
      exact ⟨i, hc⟩
    | none =>
      rw [h] at hc
      simp at hc
      rcases hc with rfl | hc2
      · exact ⟨i, rfl⟩
      · exact ih (i + 1) c hc2

/-- C1: with configuration present, each failing local validation makes
`submitScore` raise the corresponding error with an empty network-call
trace, and when all local validations pass the submission is
transmitted (an insert call appears in the trace). -/
theorem submitScore_validatesBeforeNetwork (cfg : Config) (words : List (List Char))
    (u : List Char) (s : JSVal) (env : SubmitEnv)
    (hc : configPresent cfg = true) :
    ((trimL u).isEmpty = true →
      submitScore cfg words u s env = (.error .usernameRequired, [])) ∧
    ((trimL u).isEmpty = false → 20 < (trimL u).length →
      submitScore cfg words u s env = (.error .usernameTooLong, [])) ∧
    ((trimL u).isEmpty = false → ¬ 20 < (trimL u).length →
      containsProfanityV2 words u = true →
      submitScore cfg words u s env = (.error .usernameProfane, [])) ∧
    ((trimL u).isEmpty = false → ¬ 20 < (trimL u).length →
      containsProfanityV2 words u = false → scoreInvalidB s = true →
      submitScore cfg words u s env = (.error .scoreInvalid, [])) ∧
    ((trimL u).isEmpty = false → ¬ 20 < (trimL u).length →
      containsProfanityV2 words u = false → scoreInvalidB s = false →
      ∃ p : Payload, NetCall.insert p ∈ (submitScore cfg words u s env).2) := by
  refine ⟨?_, ?_, ?_, ?_, ?_⟩
  · intro h1
    unfold submitScore
    rw [hc, h1]
    rfl
  · intro h1 hl
    unfold submitScore
    rw [hc, h1, if_pos hl]
    rfl
  · intro h1 h2 h3
    unfold submitScore
    rw [hc, h1, if_neg h2, h3]
    rfl
  · intro h1 h2 h3 h4
    unfold submitScore
    rw [hc, h1, if_neg h2, h3, h4]
    rfl
  · intro h1 h2 h3 h4
    unfold submitScore
    rw [hc, h1, if_neg h2, h3, h4]
    refine ⟨⟨trimL u, floorScore s, (getClientIP env.ipResps 0 ipServiceCount).1⟩, ?_⟩
    cases hins : env.insertResp with
    | err st body => simp [hins]
    | ok data =>
      cases hfr : (getTopScores cfg 50 env.fetchResp).1 with
      | error e => simp [hins, hfr]
      | ok rows => simp [hins, hfr]

/-- Witness for C1 at the empty username. -/
theorem submitScore_validatesBeforeNetwork_witness :
    submitScore cfgEx [] (cs "") (JSVal.num (.fin 100)) envEx
      = (.error .usernameRequired, []) :=
  (submitScore_validatesBeforeNetwork cfgEx [] (cs "") (JSVal.num (.fin 100)) envEx
    (by decide)).1 (by decide)

/-- C6: when every validation passes, the transmitted insert payload
carries exactly the trimmed username and the floored integer score. -/
theorem submitScore_payloadNormalized (cfg : Config) (words : List (List Char))
    (u : List Char) (s : JSVal) (env : SubmitEnv)
    (hc : configPresent cfg = true)
    (h1 : (trimL u).isEmpty = false)
    (h2 : ¬ 20 < (trimL u).length)
    (h3 : containsProfanityV2 words u = false)
    (h4 : scoreInvalidB s = false) :
    ∃ ip : Option (List Char),
      NetCall.insert ⟨trimL u, floorScore s, ip⟩
        ∈ (submitScore cfg words u s env).2 := by
  unfold submitScore
  rw [hc, h1, if_neg h2, h3, h4]
  refine ⟨(getClientIP env.ipResps 0 ipServiceCount).1, ?_⟩
  cases hins : env.insertResp with
  | err st body => simp [hins]
  | ok data =>
    cases hfr : (getTopScores cfg 50 env.fetchResp).1 with
    | error e => simp [hins, hfr]
    | ok rows => simp [hins, hfr]

/-- Witness for C6: submitting "  ValidUser  " with score 42.9 puts the
payload with username "ValidUser" and score 42 on the wire. -/
theorem submitScore_payloadNormalized_witness :
    ∃ ip : Option (List Char),
      NetCall.insert ⟨cs "ValidUser", JSNum.fin 42, ip⟩
        ∈ (submitScore cfgEx [] (cs "  ValidUser  ")
            (JSVal.num (.fin (mkRat 429 10))) envEx).2 :=
  submitScore_payloadNormalized cfgEx [] (cs "  ValidUser  ")
    (JSVal.num (.fin (mkRat 429 10))) envEx
    (by decide) (by decide) (by decide) (by decide) (by decide)

/-- C7: when validation passes and the remote write succeeds,
`submitScore` returns success with the echoed record and the freshly
fetched leaderboard, and the trace ends with exactly one leaderboard
fetch, at the default limit 50, after all other calls. -/
theorem submitScore_fetchAfterSuccess (cfg : Config) (words : List (List Char))
    (u : List Char) (s : JSVal) (env : SubmitEnv)
    (data : RemoteRecord) (rows : List RemoteRecord)
    (hc : configPresent cfg = true)
    (h1 : (trimL u).isEmpty = false)
    (h2 : ¬ 20 < (trimL u).length)
    (h3 : containsProfanityV2 words u = false)
    (h4 : scoreInvalidB s = false)
    (hi : env.insertResp = .ok data)
    (hf : env.fetchResp = .ok rows) :
    (submitScore cfg words u s env).1 = .ok ⟨true, data, rows⟩ ∧
    ∃ pre, (submitScore cfg words u s env).2 = pre ++ [NetCall.fetchScores 50] ∧
      ∀ c ∈ pre, ∀ limit, c ≠ NetCall.fetchScores limit := by
  have hgt : getTopScores cfg 50 env.fetchResp = (.ok rows, [.fetchScores 50]) := by
    unfold getTopScores
    rw [hc, hf]
    rfl
  have hrun : submitScore cfg words u s env =
      (.ok ⟨true, data, rows⟩,
        ((getClientIP env.ipResps 0 ipServiceCount).2
          ++ [NetCall.insert ⟨trimL u, floorScore s,
                (getClientIP env.ipResps 0 ipServiceCount).1⟩])
          ++ [NetCall.fetchScores 50]) := by
    unfold submitScore
    rw [hc, h1, if_neg h2, h3, h4, hi, hgt]
    rfl
  refine ⟨by rw [hrun], ⟨_, by rw [hrun], ?_⟩⟩
  intro c hcm limit
  rcases List.mem_append.mp hcm with hip | hone
  · rcases getClientIP_calls env.ipResps ipServiceCount 0 c hip with ⟨j, rfl⟩
    simp
  · rw [List.mem_singleton] at hone
    subst hone
    simp

/-- Witness for C7 with a succeeding write echoing one row and an empty
fresh leaderboard. -/
theorem submitScore_fetchAfterSuccess_witness :
    (submitScore cfgEx [] (cs "ValidUser") (JSVal.num (.fin 10)) envEx).1
      = .ok ⟨true, ⟨cs "row"⟩, []⟩ ∧
    ∃ pre, (submitScore cfgEx [] (cs "ValidUser") (JSVal.num (.fin 10)) envEx).2
        = pre ++ [NetCall.fetchScores 50] ∧
      ∀ c ∈ pre, ∀ limit, c ≠ NetCall.fetchScores limit :=
  submitScore_fetchAfterSuccess cfgEx [] (cs "ValidUser") (JSVal.num (.fin 10))
    envEx ⟨cs "row"⟩ [] (by decide) (by decide) (by decide) (by decide) (by decide)
    rfl rfl
